import Mathlib

/- Verification of the versioned, cache-backed, archive-rooted virtual file
system implemented by the two design variants in
src/chrome/common/extensions/docs/server2/new_github_file_system.py (the
new design) and src/chrome/common/extensions/docs/server2/github_file_system.py
(the legacy design).  Paths, entry names, version identifiers and byte
payloads are modelled as lists of characters; Python str operations are
translated to structurally recursive list functions. -/

namespace GithubFS

/-- Byte strings, paths and entry names. -/
abbrev Chars := List Char

/-- A parsed zip archive: the ordered sequence of (entry name, entry bytes)
pairs, mirroring the view that zipfile.ZipFile offers through namelist and
read. -/
structure ZipFile where
  entries : List (Chars × Chars)
deriving DecidableEq

/-- The ordered list of entry names, mirroring ZipFile.namelist(). -/
def ZipFile.namelist (z : ZipFile) : List Chars := z.entries.map Prod.fst

/-- Byte extraction by entry name, mirroring ZipFile.read(name).  Python
zipfile resolves a duplicated name to the entry registered last, hence the
search over the reversed entry list; none models the KeyError raised for an
absent name. -/
def ZipFile.read (z : ZipFile) (name : Chars) : Option Chars :=
  ((z.entries.reverse.find? (fun e => e.1 == name)).map Prod.snd)

/-- A namespaced key-value store (object store or blobstore namespace):
Set prepends, Get returns the most recent binding, Delete removes every
binding of the key. -/
abbrev Store (α : Type) := List (Chars × α)

/-- Most recent value bound to a key, mirroring store.Get(key).Get(). -/
def storeGet {α : Type} (s : Store α) (k : Chars) : Option α :=
  ((s.find? (fun e => e.1 == k)).map Prod.snd)

/-- Bind a key, mirroring store.Set(key, value). -/
def storeSet {α : Type} (s : Store α) (k : Chars) (v : α) : Store α :=
  (k, v) :: s

/-- Remove a key, mirroring store.Delete(key). -/
def storeDel {α : Type} (s : Store α) (k : Chars) : Store α :=
  s.filter (fun e => !(e.1 == k))

/-- Python path.endswith(the separator). -/
def isDir (p : Chars) : Bool := p.getLast? == some '/'

/-- Python name.split(the separator)[0]: the leading segment, used by the
new design to derive the archive root from the first namelist entry. -/
def beforeFirstSep : Chars → Chars
  | [] => []
  | c :: cs => if c = '/' then [] else c :: beforeFirstSep cs

/-- Python name.split(the separator, 1)[1]: everything after the first
separator.  On input without a separator Python would raise IndexError; the
archives in scope always carry a root directory segment, so that case is
mapped to the empty list. -/
def afterFirstSep : Chars → Chars
  | [] => []
  | c :: cs => if c = '/' then cs else afterFirstSep cs

/-- The repository cache key used by Refresh for its comparison, the literal
string given to self.stat cache Get in new_github_file_system.py line 141. -/
def statKey : Chars := ['s', 't', 'a', 't']

/-- The archive endpoint suffix appended to the repository url. -/
def zipballSuffix : Chars := ['/', 'z', 'i', 'p', 'b', 'a', 'l', 'l']

/-- What a single requested path maps to in a Read result: file bytes, or a
directory listing of child names. -/
inductive Content where
  | file (bytes : Chars)
  | dir (listing : List Chars)
deriving DecidableEq

namespace New

/-- The mutable state of a new-design GithubFileSystem instance:
repo_zip is the value of the current snapshot Future (always a value
Future in this design, installed only by a successful persist_fetch),
stat_cache is the stat-cache object store and blobstor the GithubRepos
blobstore namespace. -/
structure State where
  repo_key : Chars
  repo_url : Chars
  repo_zip : Option ZipFile
  stat_cache : Store Chars
  blobstor : Store Chars

/-- The external fetch environment of one Refresh attempt: liveVersion is
the outcome of FetchLiveVersion (none models a raised fetch or JSON error),
zipFetch the outcome of fetching the zipball (none models
urlfetch.DownloadError), and parse maps a payload to its ZipFile parse
(none models BadZipfile). -/
structure Env where
  liveVersion : Option Chars
  zipFetch : Option Chars
  parse : Chars → Option ZipFile

/-- The persist_fetch closure of Refresh (new_github_file_system.py lines
121-138): on a download error or an unparsable payload it only logs, leaving
the state untouched; on success it writes the blob, installs the snapshot
and records the new version under repo_key. -/
def persistFetch (env : Env) (version : Chars) (s : State) : State :=
  match env.zipFetch with
  | none => s
  | some blob =>
    match env.parse blob with
    | none => s
    | some zf =>
      { s with
        blobstor := storeSet s.blobstor (s.repo_url ++ zipballSuffix) blob
        repo_zip := some zf
        stat_cache := storeSet s.stat_cache s.repo_key version }

/-- Whether Refresh starts an archive fetch: it probes the live version
(none = the probe raised, so Refresh never reaches the comparison) and
compares it against the stat cache entry for the literal key given on line
141 of new_github_file_system.py. -/
def refreshNeedsFetch (env : Env) (s : State) : Option Bool :=
  match env.liveVersion with
  | none => none
  | some v => some (!(storeGet s.stat_cache statKey == some v))

/-- Refresh followed by resolving the Future it returns: none models the
live-version probe raising out of Refresh (no state change possible), some
gives the state after the returned Future has been evaluated. -/
def refreshResolve (env : Env) (s : State) : Option State :=
  match env.liveVersion with
  | none => none
  | some v =>
    if storeGet s.stat_cache statKey == some v then some s
    else some (persistFetch env v s)

/-- The instance state after a Refresh attempt, whether or not the probe
raised. -/
def refreshResult (env : Env) (s : State) : State :=
  (refreshResolve env s).getD s

/-- A failed Read: the repository-is-empty failure of line 158 or the
FileNotFoundError wrapping the KeyError of lines 174-175, which names the
missing full entry name. -/
inductive ReadError where
  | emptyRepo
  | notFound (entry : Chars)
deriving DecidableEq

/-- The directory branch of Read (lines 165-170): keep each entry name that
extends fullPath, differs from it, and whose remainder carries no separator
before its final character, and return the remainders. -/
def listChildren (names : List Chars) (fullPath : Chars) : List Chars :=
  ((names.filter (fun f => fullPath.isPrefixOf f
      && !((f.drop fullPath.length).dropLast.contains '/')
      && !(f == fullPath))).map (fun f => f.drop fullPath.length))

/-- The per-path loop of Read (lines 162-175), aborting the whole batch at
the first file path whose full entry name is absent from the archive. -/
def readLoop (z : ZipFile) (names : List Chars) (pfx : Chars) :
    List Chars → Except ReadError (List (Chars × Content))
  | [] => .ok []
  | p :: ps =>
    if isDir p then
      (readLoop z names pfx ps).map
        (fun rest => (p, Content.dir (listChildren names (pfx ++ p))) :: rest)
    else
      match z.read (pfx ++ p) with
      | none => .error (ReadError.notFound (pfx ++ p))
      | some b => (readLoop z names pfx ps).map (fun rest => (p, Content.file b) :: rest)

/-- GithubFileSystem.Read of the new design (lines 148-177): fails when the
namelist is empty, otherwise derives the root from the first entry and maps
every requested path to file bytes or a directory listing. -/
def Read (s : State) (paths : List Chars) : Except ReadError (List (Chars × Content)) :=
  match s.repo_zip with
  | none => .error ReadError.emptyRepo
  | some z =>
    match z.namelist with
    | [] => .error ReadError.emptyRepo
    | n0 :: _ => readLoop z z.namelist (beforeFirstSep n0) paths

/-- The result of the new-design Stat: the version may be absent when the
stat cache holds nothing for the repository, and childVersions maps each
child name to the version its StatInfo carries. -/
structure StatInfo where
  version : Option Chars
  childVersions : Option (List (Chars × Option Chars))
deriving DecidableEq

/-- The namelist with the leading zip directory segment replaced by the
separator (line 191). -/
def trimmedNames (s : State) : List Chars :=
  ((match s.repo_zip with
    | none => []
    | some z => z.namelist).map (fun f => '/' :: afterFirstSep f))

/-- The child enumeration of Stat (lines 198-203): names extending the
directory path, other than the path itself, whose remainder carries no
separator at all. -/
def statChildren (trimmed : List Chars) (p : Chars) : List Chars :=
  ((trimmed.filter (fun f => p.isPrefixOf f
      && !((f.drop p.length).contains '/')
      && !(f == p))).map (fun f => f.drop p.length))

/-- GithubFileSystem.Stat of the new design (lines 179-205): fails for a
path absent from the trimmed namelist, otherwise reports the cached
repository version, with children attached only through the Python
expression child_paths or None, which collapses an empty child map to
None. -/
def Stat (s : State) (p : Chars) : Except ReadError StatInfo :=
  let trimmed := trimmedNames s
  if p ∈ trimmed then
    let version := storeGet s.stat_cache s.repo_key
    let children := if isDir p then statChildren trimmed p else []
    .ok { version := version
          childVersions :=
            if children.isEmpty then none
            else some (children.map (fun n => (n, version))) }
  else .error (ReadError.notFound p)

end New

namespace Old

/-- A version value of the legacy design: a sha string obtained from the
probe or the cache, or the integer 0 sentinel cached when the probe yields
no sha (github_file_system.py line 120). -/
inductive Ver where
  | sha (v : Chars)
  | zero
deriving DecidableEq

/-- The MakeKey helper (lines 18-19): ZIP_KEY, a dot, then str(version). -/
def makeKey (v : Ver) : Chars :=
  ['z', 'i', 'p', 'b', 'a', 'l', 'l', '.'] ++ (match v with | Ver.sha c => c | Ver.zero => ['0'])

/-- The zipball key under which Read stats the repository (line 96). -/
def zipKey : Chars := ['z', 'i', 'p', 'b', 'a', 'l', 'l']

/-- The state of the zip-file Future of the legacy design: already resolved
to an optional ZipFile (None recording an earlier failure), or still pending
as an AsyncFetchFutureZip delegate carrying the version key to persist under
and the optional superseded key to delete. -/
inductive ZipState where
  | resolved (zf : Option ZipFile)
  | pending (keyToSet : Ver) (keyToDelete : Option Ver)
deriving DecidableEq

/-- The mutable state of a legacy GithubFileSystem instance: the version the
current zip Future was requested for, the zip Future, the GITHUB_STAT object
store and the BLOBSTORE_GITHUB blobstore namespace. -/
structure State where
  version : Option Ver
  zip_file : ZipState
  object_store : Store Ver
  blobstor : Store Chars

/-- The external environment of the legacy design: statProbe is the sha
extracted from the commits/HEAD response (none models the missing-sha path
that caches the 0 sentinel), zipFetch the zipball payload (none models the
FileNotFoundError caught on line 31), and parse the ZipFile parse of a
payload (none models BadZipfile). -/
structure Env where
  statProbe : Option Chars
  zipFetch : Option Chars
  parse : Chars → Option ZipFile

/-- AsyncFetchFutureZip.Get (lines 28-44): on a fetch failure it returns
None; otherwise it first writes the blob, then deletes the superseded key,
and only then attempts the parse, returning None on BadZipfile.  The blob
write happens before the parse. -/
def asyncFetchGet (env : Env) (keyToSet : Ver) (keyToDelete : Option Ver)
    (bs : Store Chars) : Option ZipFile × Store Chars :=
  match env.zipFetch with
  | none => (none, bs)
  | some blob =>
    let bs1 := storeSet bs (makeKey keyToSet) blob
    let bs2 := match keyToDelete with
               | none => bs1
               | some k => storeDel bs1 (makeKey k)
    (env.parse blob, bs2)

/-- Resolving the zip Future: a resolved Future returns its memoized value,
a pending one runs AsyncFetchFutureZip.Get once and caches the outcome. -/
def resolveZip (env : Env) (s : State) : Option ZipFile × State :=
  match s.zip_file with
  | ZipState.resolved zf => (zf, s)
  | ZipState.pending ks kd =>
    let r := asyncFetchGet env ks kd s.blobstor
    (r.1, { s with zip_file := ZipState.resolved r.1, blobstor := r.2 })

/-- GithubFileSystem.Stat of the legacy design (lines 107-123): it serves
the object-store entry for the path when one is cached, probing upstream
only on a cache miss; a probe without a sha caches and returns the 0
sentinel (the 60 second TTL of that negative entry is not modelled). -/
def stat (env : Env) (s : State) (path : Chars) : Ver × State :=
  match storeGet s.object_store path with
  | some v => (v, s)
  | none =>
    match env.statProbe with
    | some sha =>
      (Ver.sha sha, { s with object_store := storeSet s.object_store path (Ver.sha sha) })
    | none =>
      (Ver.zero, { s with object_store := storeSet s.object_store path Ver.zero })

/-- GithubFileSystem.GetZip (lines 56-71): on a blobstore hit the blob is
parsed, a bad blob being deleted and the Future resolved to None; on a miss
the zip Future is replaced by a pending fetch keyed to delete the superseded
version.  In every branch self version becomes the requested version and the
previous snapshot handle is discarded. -/
def getZip (env : Env) (s : State) (version : Ver) : State :=
  let s1 :=
    match storeGet s.blobstor (makeKey version) with
    | some blob =>
      match env.parse blob with
      | some zf => { s with zip_file := ZipState.resolved (some zf) }
      | none =>
        { s with blobstor := storeDel s.blobstor (makeKey version)
                 zip_file := ZipState.resolved none }
    | none => { s with zip_file := ZipState.pending version s.version }
  { s1 with version := some version }

/-- A failure escaping the legacy Read: the KeyError raised by
zip file read for an absent entry (uncaught on line 79), or the IndexError
of taking namelist()[0] on an empty archive (line 78). -/
inductive Err where
  | keyError (name : Chars)
  | indexError
deriving DecidableEq

/-- GithubFileSystem.ReadFile (lines 73-79) on the resolved zip value: a
None zip yields the empty byte string, otherwise the root is the first
entry name less its final character and the entry is read under root plus
path, a missing entry raising KeyError. -/
def readFile (zf : Option ZipFile) (path : Chars) : Except Err Chars :=
  match zf with
  | none => .ok []
  | some z =>
    match z.namelist with
    | [] => .error Err.indexError
    | n0 :: _ =>
      match z.read (n0.dropLast ++ path) with
      | some b => .ok b
      | none => .error (Err.keyError (n0.dropLast ++ path))

/-- GithubFileSystem.ListDir (lines 81-93) on the resolved zip value: a
None zip yields the empty listing, otherwise every name is cut after the
root segment, restricted to proper extensions of the directory path, and
kept when the remainder has no separator before its final character. -/
def listDir (zf : Option ZipFile) (path : Chars) : List Chars :=
  match zf with
  | none => []
  | some z =>
    match z.namelist with
    | [] => []
    | n0 :: _ =>
      let trimmed := z.namelist.map (fun f => f.drop (n0.length - 1))
      let rel := ((trimmed.filter (fun f => !(f == path) && path.isPrefixOf f)).map
        (fun f => f.drop path.length))
      rel.filter (fun f => f.dropLast.count '/' == 0)

/-- The per-path loop of the legacy Read (lines 99-104), resolving the zip
Future at the first access and threading the resulting state. -/
def readLoop (env : Env) : State → List Chars → Except Err (List (Chars × Content)) × State
  | s, [] => (.ok [], s)
  | s, p :: ps =>
    let rz := resolveZip env s
    if isDir p then
      let rest := readLoop env rz.2 ps
      ((rest.1).map (fun r => (p, Content.dir (listDir rz.1 p)) :: r), rest.2)
    else
      match readFile rz.1 p with
      | .error e => (.error e, rz.2)
      | .ok b =>
        let rest := readLoop env rz.2 ps
        ((rest.1).map (fun r => (p, Content.file b) :: r), rest.2)

/-- GithubFileSystem.Read of the legacy design (lines 95-105): stat the
zipball key (served from the cache when present), replace the zip Future
through GetZip whenever the stated version differs from the one the current
Future was requested for, then resolve every requested path. -/
def Read (env : Env) (s : State) (paths : List Chars) :
    Except Err (List (Chars × Content)) × State :=
  let st := stat env s zipKey
  let s2 := if some st.1 == st.2.version then st.2 else getZip env st.2 st.1
  readLoop env s2 paths

end Old

/-- Modelled from the spec: the Future class (the Deferred Value of spec
section 4.1) lives in future.py, which is not under src; only its callers
are.  A Deferred Value wraps either an already-known result or a delegate
computation; Resolve runs the delegate at most once and caches the outcome,
every later Resolve returning the cached outcome without re-invoking the
delegate. -/
structure Deferred (α : Type) where
  result : Option α
  delegate : Option (Unit → α)

/-- A Deferred Value constructed with a concrete value. -/
def Deferred.ofValue {α : Type} (v : α) : Deferred α := ⟨some v, none⟩

/-- A Deferred Value constructed with a delegate computation. -/
def Deferred.ofDelegate {α : Type} (f : Unit → α) : Deferred α := ⟨none, some f⟩

/-- Modelled from the spec: Resolve returns the value, the Deferred Value
after memoization, and how many times the delegate ran during this call. -/
def Deferred.resolve {α : Type} (d : Deferred α) : Option α × Deferred α × Nat :=
  match d.result with
  | some v => (some v, d, 0)
  | none =>
    match d.delegate with
    | some f => (some (f ()), ⟨some (f ()), d.delegate⟩, 1)
    | none => (none, d, 0)

/-- The Gettable wrapper of new_github_file_system.py lines 34-41: calling
Get on it is the same as calling the wrapped closure directly; it performs
no memoization of its own. -/
structure Gettable (α : Type) where
  g : Unit → α

/-- Gettable.Get simply invokes the stored closure. -/
def Gettable.Get {α : Type} (x : Gettable α) : α := x.g ()

/- Concrete fixtures used by witnesses and counterexamples.  The archive z1
has the usual zipball shape: a root directory entry, a file a with bytes hi,
a subdirectory d and a file d/b. -/

/-- An archive fixture with root directory r, file a, subdirectory d and
file d/b. -/
def z1 : ZipFile := ⟨[(['r', '/'], []), (['r', '/', 'a'], ['h', 'i']),
  (['r', '/', 'd', '/'], []), (['r', '/', 'd', '/', 'b'], ['y', 'o'])]⟩

/-- A new-design instance holding snapshot z1, whose version v1 was recorded
under repo_key exactly as persist_fetch records it. -/
def sNew : New.State :=
  { repo_key := ['o', '/', 'r'], repo_url := ['u'], repo_zip := some z1,
    stat_cache := [(['o', '/', 'r'], ['v', '1'])], blobstor := [] }

/-- An archive fixture whose only non-root entry is an empty directory. -/
def z2 : ZipFile := ⟨[(['r', '/'], []), (['r', '/', 'e', '/'], [])]⟩

/-- A new-design instance holding snapshot z2. -/
def s8 : New.State :=
  { repo_key := ['k'], repo_url := ['u'], repo_zip := some z2,
    stat_cache := [(['k'], ['v'])], blobstor := [] }

/-- A fetch environment whose version probe raises. -/
def envFail : New.Env := { liveVersion := none, zipFetch := none, parse := fun _ => none }

/-- A fetch environment returning a payload that does not parse as a zip. -/
def envBadZip : New.Env :=
  { liveVersion := some ['v', '2'], zipFetch := some ['g'], parse := fun _ => none }

/-- A fetch environment whose probe succeeds and whose payload parses. -/
def envGood : New.Env :=
  { liveVersion := some ['v', '2'], zipFetch := some ['g'], parse := fun _ => some z1 }

/-- A fetch environment whose live probe returns v1, the very version the
snapshot of sNew was built from. -/
def envC5 : New.Env :=
  { liveVersion := some ['v', '1'], zipFetch := none, parse := fun _ => none }

/-- A legacy-design instance with snapshot z1 installed for version v1 while
the stat cache already announces version v2, so the next Read refreshes. -/
def sOldC1 : Old.State :=
  { version := some (Old.Ver.sha ['v', '1']), zip_file := Old.ZipState.resolved (some z1),
    object_store := [(Old.zipKey, Old.Ver.sha ['v', '2'])], blobstor := [] }

/-- A legacy-design instance with snapshot z1 installed and no pending
version change. -/
def sOldC4 : Old.State :=
  { version := some (Old.Ver.sha ['v', '1']), zip_file := Old.ZipState.resolved (some z1),
    object_store := [(Old.zipKey, Old.Ver.sha ['v', '1'])], blobstor := [] }

/-- A legacy-design environment whose archive fetch fails. -/
def eOldFail : Old.Env := { statProbe := none, zipFetch := none, parse := fun _ => none }

/-- A legacy-design environment whose archive fetch returns an unparsable
payload. -/
def eOldBad : Old.Env := { statProbe := none, zipFetch := some ['g'], parse := fun _ => none }

/-- Helper: in a list of pairs with pairwise distinct keys, find locates the
unique pair carrying a present key. -/
theorem findPair_unique (l : List (Chars × Chars)) (k b : Chars)
    (hnd : (l.map Prod.fst).Nodup) (hmem : (k, b) ∈ l) :
    l.find? (fun e => e.1 == k) = some (k, b) := by
  induction l with
  | nil => cases hmem
  | cons hd tl ih =>
    rw [List.map_cons, List.nodup_cons] at hnd
    rcases List.mem_cons.mp hmem with heq | htl
    · subst heq
      exact List.find?_cons_of_pos _ (by simp)
    · have hne : hd.1 ≠ k := by
        intro hcontra
        exact hnd.1 (hcontra ▸ (List.mem_map.mpr ⟨(k, b), htl, rfl⟩))
      rw [List.find?_cons_of_neg _ (by simpa using hne)]
      exact ih hnd.2 htl

/-- Helper: when the namelist has no duplicate names, reading an entry that
the archive holds returns exactly its stored bytes. -/
theorem zip_read_eq (z : ZipFile) (k b : Chars) (hnd : z.namelist.Nodup)
    (hmem : (k, b) ∈ z.entries) : z.read k = some b := by
  unfold ZipFile.read
  rw [findPair_unique z.entries.reverse k b]
  · rfl
  · rw [List.map_reverse]
    exact List.nodup_reverse.mpr hnd
  · exact List.mem_reverse.mpr hmem

/-- Helper: with a snapshot installed and a non-empty namelist, the
new-design Read is its per-path loop under the derived root segment. -/
theorem Read_eq_readLoop (s : New.State) (z : ZipFile) (n0 : Chars) (ns : List Chars)
    (hz : s.repo_zip = some z) (hn : z.namelist = n0 :: ns) (paths : List Chars) :
    New.Read s paths = New.readLoop z (n0 :: ns) (beforeFirstSep n0) paths := by
  have h1 : New.Read s paths = match z.namelist with
      | [] => Except.error New.ReadError.emptyRepo
      | n0 :: _ => New.readLoop z z.namelist (beforeFirstSep n0) paths := by
    unfold New.Read
    rw [hz]
  rw [h1, hn]

/-- Helper: the per-path loop of the new-design Read fails with the
not-found error of some missing requested file path whenever the batch
contains one. -/
theorem readLoop_error_of_missing (z : ZipFile) (names : List Chars) (pfx : Chars)
    (paths : List Chars) (p : Chars) (hp : p ∈ paths) (hfile : isDir p = false)
    (hmiss : z.read (pfx ++ p) = none) :
    ∃ q, q ∈ paths ∧ isDir q = false ∧ z.read (pfx ++ q) = none ∧
      New.readLoop z names pfx paths = .error (New.ReadError.notFound (pfx ++ q)) := by
  induction paths with
  | nil => cases hp
  | cons a as ih =>
    cases hda : isDir a with
    | true =>
      have hpa : p ∈ as := by
        rcases List.mem_cons.mp hp with h | h
        · rw [h] at hfile
          rw [hfile] at hda
          cases hda
        · exact h
      obtain ⟨q, hq1, hq2, hq3, hq4⟩ := ih hpa
      refine ⟨q, List.mem_cons_of_mem a hq1, hq2, hq3, ?_⟩
      unfold New.readLoop
      simp [hda, hq4, Except.map]
    | false =>
      cases hza : z.read (pfx ++ a) with
      | none =>
        refine ⟨a, List.mem_cons_self a as, hda, hza, ?_⟩
        unfold New.readLoop
        simp [hda, hza]
      | some b =>
        have hpa : p ∈ as := by
          rcases List.mem_cons.mp hp with h | h
          · rw [h, hza] at hmiss
            cases hmiss
          · exact h
        obtain ⟨q, hq1, hq2, hq3, hq4⟩ := ih hpa
        refine ⟨q, List.mem_cons_of_mem a hq1, hq2, hq3, ?_⟩
        unfold New.readLoop
        simp [hda, hza, hq4, Except.map]

/-- Helper: a successful new-design Stat reports the cached repository
version and the child map described by its directory branch. -/
theorem stat_ok_elim (s : New.State) (p : Chars) (i : New.StatInfo)
    (h : New.Stat s p = .ok i) :
    i.version = storeGet s.stat_cache s.repo_key ∧
    i.childVersions = (if (if isDir p then New.statChildren (New.trimmedNames s) p
        else []).isEmpty then none
      else some ((if isDir p then New.statChildren (New.trimmedNames s) p else []).map
        (fun n => (n, storeGet s.stat_cache s.repo_key)))) := by
  unfold New.Stat at h
  by_cases hmem : p ∈ New.trimmedNames s
  · rw [if_pos hmem] at h
    cases h
    exact ⟨rfl, rfl⟩
  · rw [if_neg hmem] at h
    cases h

/-- Claim C1, amended to the new design: if a refresh attempt fails at the
version probe, the archive fetch or the archive parse, the instance state
is left untouched, so every later Read returns exactly what the previously
installed snapshot serves.  The legacy design violates the claim as stated,
see the counterexample. -/
theorem C1_refresh_failure_preserves_snapshot (env : New.Env) (s : New.State) (z : ZipFile)
    (_hz : s.repo_zip = some z)
    (hfail : env.liveVersion = none ∨ env.zipFetch = none ∨
      (∀ b, env.zipFetch = some b → env.parse b = none)) :
    New.refreshResult env s = s ∧
      ∀ ps, New.Read (New.refreshResult env s) ps = New.Read s ps := by
  have hmain : New.refreshResult env s = s := by
    unfold New.refreshResult New.refreshResolve
    cases hl : env.liveVersion with
    | none => rfl
    | some v =>
      by_cases hc : storeGet s.stat_cache statKey == some v
      · simp [hc]
      · simp only [hc, if_false, Option.getD_some]
        unfold New.persistFetch
        cases hzf : env.zipFetch with
        | none => rfl
        | some blob =>
          rcases hfail with h | h | h
          · rw [hl] at h
            cases h
          · rw [hzf] at h
            cases h
          · simp [h blob hzf]
  exact ⟨hmain, fun ps => by rw [hmain]⟩

/-- Witness for C1: a concrete instance with snapshot z1 installed, whose
version probe raises, keeps its state and its Read results. -/
theorem C1_witness :
    New.refreshResult envFail sNew = sNew ∧
      New.Read (New.refreshResult envFail sNew) [['/', 'a']] = New.Read sNew [['/', 'a']] :=
  ⟨(C1_refresh_failure_preserves_snapshot envFail sNew z1 rfl (Or.inl rfl)).1,
   (C1_refresh_failure_preserves_snapshot envFail sNew z1 rfl (Or.inl rfl)).2 [['/', 'a']]⟩

/-- Counterexample to C1 as stated: in the legacy design, an instance with
snapshot z1 installed (entry a holding bytes hi) whose refresh fails at the
archive fetch answers a later Read of the file a with the empty byte string
instead of the previously installed content, because GetZip replaced the
snapshot handle before the fetch was known to succeed. -/
theorem C1_counterexample :
    sOldC1.zip_file = Old.ZipState.resolved (some z1) ∧
    z1.read (['r', '/'].dropLast ++ ['/', 'a']) = some ['h', 'i'] ∧
    (Old.Read eOldFail sOldC1 [['/', 'a']]).1 = .ok [(['/', 'a'], Content.file [])] :=
  ⟨rfl, rfl, rfl⟩

/-- Claim C2, amended to the new design: persist_fetch writes nothing, in
particular no blob record, for a downloaded payload that does not parse as
a zip archive.  The legacy design violates the claim as stated, see the
counterexample. -/
theorem C2_no_blob_without_parse (env : New.Env) (v : Chars) (s : New.State) (b : Chars)
    (hb : env.zipFetch = some b) (hp : env.parse b = none) :
    New.persistFetch env v s = s := by
  unfold New.persistFetch
  simp only [hb, hp]

/-- Witness for C2: a concrete unparsable payload leaves a concrete
new-design state, in particular its blobstore, unchanged. -/
theorem C2_witness : New.persistFetch envBadZip ['v', '2'] sNew = sNew :=
  C2_no_blob_without_parse envBadZip ['v', '2'] sNew ['g'] rfl rfl

/-- Counterexample to C2 as stated: the legacy AsyncFetchFutureZip.Get
persists the downloaded payload before attempting the parse, so a payload
that fails to parse is nevertheless written to the blobstore. -/
theorem C2_counterexample :
    eOldBad.parse ['g'] = none ∧
    (Old.asyncFetchGet eOldBad (Old.Ver.sha ['v', '2']) none []).1 = none ∧
    storeGet (Old.asyncFetchGet eOldBad (Old.Ver.sha ['v', '2']) none []).2
      (Old.makeKey (Old.Ver.sha ['v', '2'])) = some ['g'] :=
  ⟨rfl, rfl, rfl⟩

/-- Claim C3: for a snapshot with a duplicate-free namelist, reading a file
path whose full entry name (root segment plus path) is present returns
exactly the bytes the archive stores at that entry. -/
theorem C3_read_roundtrip (s : New.State) (z : ZipFile) (n0 : Chars) (ns : List Chars)
    (p b : Chars) (hz : s.repo_zip = some z) (hn : z.namelist = n0 :: ns)
    (hfile : isDir p = false) (hnd : z.namelist.Nodup)
    (hmem : (beforeFirstSep n0 ++ p, b) ∈ z.entries) :
    New.Read s [p] = .ok [(p, Content.file b)] := by
  rw [Read_eq_readLoop s z n0 ns hz hn]
  unfold New.readLoop
  rw [hfile]
  simp only [Bool.false_eq_true, if_false, zip_read_eq z _ b hnd hmem]
  rfl

/-- Witness for C3: reading file a of the fixture returns its stored bytes
hi. -/
theorem C3_witness :
    New.Read sNew [['/', 'a']] = .ok [(['/', 'a'], Content.file ['h', 'i'])] :=
  C3_read_roundtrip sNew z1 ['r', '/']
    [['r', '/', 'a'], ['r', '/', 'd', '/'], ['r', '/', 'd', '/', 'b']]
    ['/', 'a'] ['h', 'i'] rfl rfl rfl (by decide) (by decide)

/-- Claim C4, amended to the new design: a batch containing a file path
whose entry is absent fails as a whole with the not-found error naming the
missing full entry name of some absent file path of the batch, and no
mapping is returned for the other paths.  The legacy design fails such a
batch with an uncaught KeyError instead of its NotFoundError class, see the
counterexample. -/
theorem C4_batch_read_all_or_nothing (s : New.State) (z : ZipFile) (n0 : Chars)
    (ns : List Chars) (paths : List Chars) (p : Chars)
    (hz : s.repo_zip = some z) (hn : z.namelist = n0 :: ns)
    (hp : p ∈ paths) (hfile : isDir p = false)
    (hmiss : z.read (beforeFirstSep n0 ++ p) = none) :
    ∃ q, q ∈ paths ∧ isDir q = false ∧ z.read (beforeFirstSep n0 ++ q) = none ∧
      New.Read s paths = .error (New.ReadError.notFound (beforeFirstSep n0 ++ q)) := by
  obtain ⟨q, h1, h2, h3, h4⟩ :=
    readLoop_error_of_missing z (n0 :: ns) (beforeFirstSep n0) paths p hp hfile hmiss
  exact ⟨q, h1, h2, h3, by rw [Read_eq_readLoop s z n0 ns hz hn, h4]⟩

/-- Witness for C4: a batch holding the present file a and the absent file
q fails as a whole with the not-found error naming the absent entry. -/
theorem C4_witness :
    ∃ q, q ∈ [['/', 'a'], ['/', 'q']] ∧ isDir q = false ∧
      z1.read (beforeFirstSep ['r', '/'] ++ q) = none ∧
      New.Read sNew [['/', 'a'], ['/', 'q']] =
        .error (New.ReadError.notFound (beforeFirstSep ['r', '/'] ++ q)) :=
  C4_batch_read_all_or_nothing sNew z1 ['r', '/']
    [['r', '/', 'a'], ['r', '/', 'd', '/'], ['r', '/', 'd', '/', 'b']]
    [['/', 'a'], ['/', 'q']] ['/', 'q'] rfl rfl (by decide) rfl rfl

/-- Counterexample to C4 as stated: the legacy Read of an absent file path
escapes with the KeyError of the zip extraction, not with the
FileNotFoundError class the claim names. -/
theorem C4_counterexample :
    (Old.Read eOldFail sOldC4 [['/', 'q']]).1 = .error (Old.Err.keyError ['r', '/', 'q']) :=
  rfl

/-- Claim C5, the code bug it exposes: with the snapshot version v1
recorded under repo_key (exactly as persist_fetch records it) and a live
probe returning the same v1, Refresh still decides to fetch, because line
141 compares the live version against the never-written literal key stat
instead of the repo_key entry the version was persisted under. -/
theorem C5_refresh_compares_wrong_cache_key :
    storeGet sNew.stat_cache sNew.repo_key = some ['v', '1'] ∧
    envC5.liveVersion = some ['v', '1'] ∧
    New.refreshNeedsFetch envC5 sNew = some true ∧
    storeGet sNew.stat_cache statKey = none ∧
    (New.persistFetch envGood ['v', '2'] sNew).stat_cache =
      storeSet sNew.stat_cache sNew.repo_key ['v', '2'] :=
  ⟨rfl, rfl, rfl, rfl, rfl⟩

/-- Claim C6: two successful Stat calls against the same state report the
same version, and every entry of a childVersions map carries that same
version. -/
theorem C6_single_version_invariant (s : New.State) (p q : Chars)
    (ip iq : New.StatInfo) (hp : New.Stat s p = .ok ip) (hq : New.Stat s q = .ok iq) :
    ip.version = iq.version ∧
    ∀ cv ∈ ip.childVersions.getD [], cv.2 = ip.version := by
  obtain ⟨hv1, hc1⟩ := stat_ok_elim s p ip hp
  obtain ⟨hv2, _⟩ := stat_ok_elim s q iq hq
  refine ⟨hv1.trans hv2.symm, ?_⟩
  intro cv hcv
  rw [hc1] at hcv
  by_cases he : (if isDir p then New.statChildren (New.trimmedNames s) p else []).isEmpty
  · rw [if_pos he] at hcv
    cases hcv
  · rw [if_neg he] at hcv
    rw [Option.getD_some] at hcv
    obtain ⟨n, _, hn2⟩ := List.mem_map.mp hcv
    rw [← hn2, hv1]

/-- Witness for C6: stating the root directory and the file a of the
fixture yields one and the same version v1, also inside childVersions. -/
theorem C6_witness :
    (New.StatInfo.mk (some ['v', '1']) (some [(['a'], some ['v', '1'])])).version =
      (New.StatInfo.mk (some ['v', '1']) none).version ∧
    ∀ cv ∈ (New.StatInfo.mk (some ['v', '1'])
        (some [(['a'], some ['v', '1'])])).childVersions.getD [],
      cv.2 = (New.StatInfo.mk (some ['v', '1']) (some [(['a'], some ['v', '1'])])).version :=
  C6_single_version_invariant sNew ['/'] ['/', 'a'] _ _ rfl rfl

/-- Claim C7: every name of a directory listing is an immediate child: in
the new design it is the remainder, after the directory path, of an entry
extending that path, and in both designs it carries no separator before its
final character. -/
theorem C7_immediate_children_only (names : List Chars) (fp n : Chars)
    (zf : Option ZipFile) (p m : Chars)
    (hn : n ∈ New.listChildren names fp) (hm : m ∈ Old.listDir zf p) :
    (∃ f, f ∈ names ∧ fp.isPrefixOf f = true ∧ f ≠ fp ∧ n = f.drop fp.length) ∧
    n.dropLast.contains '/' = false ∧
    m.dropLast.count '/' = 0 := by
  refine ⟨?_, ?_, ?_⟩
  · unfold New.listChildren at hn
    obtain ⟨f, hf1, hf2⟩ := List.mem_map.mp hn
    obtain ⟨hf3, hf4⟩ := List.mem_filter.mp hf1
    simp only [Bool.and_eq_true, Bool.not_eq_true', beq_eq_false_iff_ne] at hf4
    exact ⟨f, hf3, hf4.1.1, hf4.2, hf2.symm⟩
  · unfold New.listChildren at hn
    obtain ⟨f, hf1, hf2⟩ := List.mem_map.mp hn
    obtain ⟨hf3, hf4⟩ := List.mem_filter.mp hf1
    simp only [Bool.and_eq_true, Bool.not_eq_true'] at hf4
    rw [← hf2]
    exact hf4.1.2
  · unfold Old.listDir at hm
    cases zf with
    | none => cases hm
    | some z =>
      cases hnl : z.namelist with
      | nil =>
        simp only [hnl, List.not_mem_nil] at hm
      | cons n0 ns =>
        simp only [hnl] at hm
        obtain ⟨hm1, hm2⟩ := List.mem_filter.mp hm
        exact eq_of_beq hm2

/-- Witness for C7: the child a of the fixture root listing under the new
design, and the child d of the legacy listing, both carry no internal
separator. -/
theorem C7_witness :
    ((∃ f, f ∈ z1.namelist ∧ (['r', '/'] : Chars).isPrefixOf f = true ∧ f ≠ ['r', '/'] ∧
        (['a'] : Chars) = f.drop (['r', '/'] : Chars).length) ∧
      (['a'] : Chars).dropLast.contains '/' = false ∧
      (['d', '/'] : Chars).dropLast.count '/' = 0) :=
  C7_immediate_children_only z1.namelist ['r', '/'] ['a'] (some z1) ['/'] ['d', '/']
    (by decide) (by decide)

/-- Claim C8, amended: a successful Stat carries a present childVersions
exactly when the path is a directory with at least one immediate child; the
Python expression child_paths or None collapses the empty child map of a
childless directory to None, refuting the claimed equivalence with being a
directory, see the counterexample. -/
theorem C8_childversions_iff_nonempty_dir (s : New.State) (p : Chars) (i : New.StatInfo)
    (h : New.Stat s p = .ok i) :
    i.childVersions.isSome =
      (isDir p && !(New.statChildren (New.trimmedNames s) p).isEmpty) := by
  obtain ⟨_, hc⟩ := stat_ok_elim s p i h
  cases hd : isDir p with
  | false =>
    rw [hd] at hc
    simp at hc
    rw [hc]
    rfl
  | true =>
    rw [hd] at hc
    simp only [if_true] at hc
    cases he : (New.statChildren (New.trimmedNames s) p).isEmpty with
    | true =>
      rw [he] at hc
      simp at hc
      rw [hc]
      rfl
    | false =>
      rw [he] at hc
      simp at hc
      rw [hc]
      rfl

/-- Witness for C8: stating the childless directory e of the fixture z2
yields an absent childVersions, matching the amended equivalence. -/
theorem C8_witness :
    (New.StatInfo.mk (some ['v']) none).childVersions.isSome =
      (isDir ['/', 'e', '/'] &&
        !(New.statChildren (New.trimmedNames s8) ['/', 'e', '/']).isEmpty) :=
  C8_childversions_iff_nonempty_dir s8 ['/', 'e', '/'] _ rfl

/-- Counterexample to C8 as stated: the path of the empty directory e ends
in the separator, yet its successful Stat carries childVersions None. -/
theorem C8_counterexample :
    isDir ['/', 'e', '/'] = true ∧
    New.Stat s8 ['/', 'e', '/'] = .ok (New.StatInfo.mk (some ['v']) none) :=
  ⟨rfl, rfl⟩

/-- Claim C9: resolving a Deferred Value built over a Gettable delegate
twice returns the same outcome both times and runs the delegate exactly
once across the two resolutions. -/
theorem C9_deferred_resolve_once {α : Type} (x : Gettable α) :
    (Deferred.ofDelegate (fun _ => x.Get)).resolve.1 = some (x.Get) ∧
    ((Deferred.ofDelegate (fun _ => x.Get)).resolve.2.1.resolve).1 =
      (Deferred.ofDelegate (fun _ => x.Get)).resolve.1 ∧
    (Deferred.ofDelegate (fun _ => x.Get)).resolve.2.2 +
      ((Deferred.ofDelegate (fun _ => x.Get)).resolve.2.1.resolve).2.2 = 1 :=
  ⟨rfl, rfl, rfl⟩

/-- Claim C10: reading a directory path that matches no entry of a
non-empty snapshot does not fail, it maps the path to the empty listing. -/
theorem C10_missing_dir_empty_listing (s : New.State) (z : ZipFile) (n0 : Chars)
    (ns : List Chars) (p : Chars)
    (hz : s.repo_zip = some z) (hn : z.namelist = n0 :: ns) (hd : isDir p = true)
    (hnone : ∀ f ∈ z.namelist, (beforeFirstSep n0 ++ p).isPrefixOf f = false) :
    New.Read s [p] = .ok [(p, Content.dir [])] := by
  rw [Read_eq_readLoop s z n0 ns hz hn]
  unfold New.readLoop
  rw [hd]
  have hlc : New.listChildren (n0 :: ns) (beforeFirstSep n0 ++ p) = [] := by
    unfold New.listChildren
    rw [List.filter_eq_nil_iff.mpr, List.map_nil]
    intro f hf
    rw [← hn] at hf
    simp [hnone f hf]
  rw [hlc]
  rfl

/-- Witness for C10: reading the nonexistent directory x of the fixture
succeeds with an empty listing. -/
theorem C10_witness :
    New.Read sNew [['/', 'x', '/']] = .ok [(['/', 'x', '/'], Content.dir [])] :=
  C10_missing_dir_empty_listing sNew z1 ['r', '/']
    [['r', '/', 'a'], ['r', '/', 'd', '/'], ['r', '/', 'd', '/', 'b']]
    ['/', 'x', '/'] rfl rfl rfl (by decide)

end GithubFS
